import Mathlib

/-!
Verification of the branch-scope resolution and branch-name sanitization
core of the ob-asset-example repository.

The repository ships the tests (src/test_local.py) and example flows that
call the core, while the core itself lives in the `obproject` package
(`obproject.projectbase.resolve_scope`, `obproject.assets._sanitize_branch_name`),
which is not part of the source tree.  The definitions below therefore model
the missing functions from the specification, with every behavioural choice
that the specification leaves open pinned by the expectations encoded in
src/test_local.py.
-/

namespace ObAsset

/-- Modelled from the spec: the project configuration map consumed by
`resolve_scope`.  `project` is the project-name field (`""` models a
configuration that lacks a project name); `dev_assets` is the optional
`[dev-assets]` override branch (the hyphenated key `dev-assets` in the
TOML configuration). -/
structure ProjectConfig where
  project : String
  dev_assets : Option String
deriving DecidableEq

/-- Modelled from the spec: the optional deployment descriptor.  `branch` is
the raw deployment branch field; `metaflow_branch` is the `metaflow_branch`
annotation from the nested `spec` map, flattened here, with `""` modelling an
empty or absent annotation (the spec treats the two alike). -/
structure DeploymentSpec where
  branch : String
  metaflow_branch : String
deriving DecidableEq

/-- Modelled from the spec: the error taxonomy of the scope resolver. -/
inductive ProjectError where
  | invalidConfiguration
  | invalidDeploymentSpec
deriving DecidableEq

/-- Modelled from the spec: the error raised by the branch sanitizer. -/
inductive AssetError where
  | invalidBranchName
deriving DecidableEq

/-- Modelled from the spec: the effective branch of a present deployment
spec — the `metaflow_branch` annotation when non-empty, else the legacy
`branch` field. -/
def effective_branch (d : DeploymentSpec) : String :=
  if d.metaflow_branch = "" then d.branch else d.metaflow_branch

/-- Modelled from the spec: the production classification — the branch is
exactly `"prod"` or carries the literal prefix `"prod."`.  The Python
`str.startswith` test is modelled as a character-list prefix test. -/
def is_production (b : String) : Bool :=
  b == "prod" || "prod.".data.isPrefixOf b.data

/-- Modelled from the spec: `obproject.projectbase.resolve_scope`, absent
from the source tree.  Follows the algorithm of the spec, except that for a
present non-production deployment spec with no override the read branch is
the concrete effective branch itself, as required by the expectations at
lines 76-82, 92-98 and 136-150 of src/test_local.py (the spec decision
table writes `none` there). -/
def resolve_scope (cfg : ProjectConfig) (spec : Option DeploymentSpec) :
    Except ProjectError (String × Option String) :=
  if cfg.project = "" then .error .invalidConfiguration
  else
    match spec with
    | none => .ok (cfg.project, cfg.dev_assets)
    | some d =>
        if d.metaflow_branch = "" ∧ d.branch = "" then .error .invalidDeploymentSpec
        else if is_production (effective_branch d) then
          .ok (cfg.project, some (effective_branch d))
        else
          match cfg.dev_assets with
          | some ov => .ok (cfg.project, some ov)
          | none => .ok (cfg.project, some (effective_branch d))

/-- The storage-safe alphabet `[a-z0-9_-]`: code points 97-122 are `a`-`z`,
48-57 are `0`-`9`, 95 is `_` and 45 is `-`. -/
def isAllowed (c : Char) : Prop :=
  (97 ≤ c.toNat ∧ c.toNat ≤ 122) ∨ (48 ≤ c.toNat ∧ c.toNat ≤ 57) ∨
    c.toNat = 95 ∨ c.toNat = 45

instance (c : Char) : Decidable (isAllowed c) := by
  unfold isAllowed; infer_instance

/-- Modelled from the spec: sanitizer step 1 — replace every `@` with the
sequence `_at_`. -/
def expandAt : List Char → List Char
  | [] => []
  | c :: cs => (if c = '@' then ['_', 'a', 't', '_'] else [c]) ++ expandAt cs

/-- Modelled from the spec: sanitizer step 2 — replace `.` and `/` with `_`. -/
def dotSlashChar (c : Char) : Char :=
  if c = '.' ∨ c = '/' then '_' else c

/-- Modelled from the spec: sanitizer step 3 — lowercase ASCII letters
(code points 65-90 are `A`-`Z`; adding 32 yields the lowercase letter). -/
def lowerChar (c : Char) : Char :=
  if 65 ≤ c.toNat ∧ c.toNat ≤ 90 then Char.ofNat (c.toNat + 32) else c

/-- Modelled from the spec: sanitizer step 4 — replace any character still
outside `[a-z0-9_-]` with `_`. -/
def sanitizeChar (c : Char) : Char :=
  if isAllowed c then c else '_'

/-- Modelled from the spec: the four sanitizer steps applied in order. -/
def sanitizeChars (cs : List Char) : List Char :=
  (((expandAt cs).map dotSlashChar).map lowerChar).map sanitizeChar

/-- Modelled from the spec: whitespace trimming at both ends, as in the
emptiness check of the sanitizer (Python `str.strip`). -/
def trimChars (cs : List Char) : List Char :=
  ((cs.dropWhile Char.isWhitespace).reverse.dropWhile Char.isWhitespace).reverse

/-- Modelled from the spec: `obproject.assets._sanitize_branch_name`, absent
from the source tree.  Fails with `InvalidBranchName` when the input is
empty after trimming, otherwise applies the four transformation steps. -/
def _sanitize_branch_name (raw : String) : Except AssetError String :=
  if trimChars raw.data = [] then .error .invalidBranchName
  else .ok (String.mk (sanitizeChars raw.data))

end ObAsset

namespace ObAsset

/-- Every character produced by the catch-all step lies in `[a-z0-9_-]`. -/
theorem isAllowed_sanitizeChar (c : Char) : isAllowed (sanitizeChar c) := by
  unfold sanitizeChar
  by_cases h : isAllowed c
  · rw [if_pos h]; exact h
  · rw [if_neg h]; decide

/-- Every character of a sanitized character list lies in `[a-z0-9_-]`. -/
theorem isAllowed_of_mem_sanitizeChars {c : Char} {cs : List Char}
    (h : c ∈ sanitizeChars cs) : isAllowed c := by
  unfold sanitizeChars at h
  rcases List.mem_map.mp h with ⟨a, _, rfl⟩
  exact isAllowed_sanitizeChar a

/-- Characters of the storage-safe alphabet are not whitespace. -/
theorem not_whitespace_of_isAllowed {c : Char} (h : isAllowed c) :
    c.isWhitespace = false := by
  by_contra hw
  rw [Bool.not_eq_false] at hw
  simp only [Char.isWhitespace, Bool.or_eq_true, decide_eq_true_eq] at hw
  rcases hw with ((rfl | rfl) | rfl) | rfl <;> revert h <;> decide

/-- `dropWhile` is the identity when no element satisfies the predicate. -/
theorem dropWhile_eq_self_of_not {p : Char → Bool} {cs : List Char}
    (h : ∀ c ∈ cs, p c = false) : cs.dropWhile p = cs := by
  cases cs with
  | nil => rfl
  | cons a l => rw [List.dropWhile_cons, h a (List.mem_cons_self a l)]; simp

/-- Trimming is the identity on whitespace-free character lists. -/
theorem trimChars_eq_self {cs : List Char}
    (h : ∀ c ∈ cs, c.isWhitespace = false) : trimChars cs = cs := by
  unfold trimChars
  rw [dropWhile_eq_self_of_not h,
    dropWhile_eq_self_of_not (fun c hc => h c (List.mem_reverse.mp hc)),
    List.reverse_reverse]

/-- Storage-safe characters are not the at sign. -/
theorem ne_at_of_isAllowed {c : Char} (h : isAllowed c) : c ≠ '@' := by
  rintro rfl; revert h; decide

/-- Step 2 fixes storage-safe characters. -/
theorem dotSlashChar_fixed {c : Char} (h : isAllowed c) : dotSlashChar c = c := by
  unfold dotSlashChar
  rw [if_neg]
  rintro (rfl | rfl) <;> revert h <;> decide

/-- Step 3 fixes storage-safe characters. -/
theorem lowerChar_fixed {c : Char} (h : isAllowed c) : lowerChar c = c := by
  unfold lowerChar
  rw [if_neg]
  unfold isAllowed at h
  omega

/-- Step 4 fixes storage-safe characters. -/
theorem sanitizeChar_fixed {c : Char} (h : isAllowed c) : sanitizeChar c = c := by
  unfold sanitizeChar
  exact if_pos h

/-- Step 1 is the identity on lists without the at sign. -/
theorem expandAt_eq_self {cs : List Char} (h : ∀ c ∈ cs, c ≠ '@') :
    expandAt cs = cs := by
  induction cs with
  | nil => rfl
  | cons a l ih =>
      unfold expandAt
      rw [if_neg (h a (List.mem_cons_self a l)),
        ih (fun c hc => h c (List.mem_cons.mpr (Or.inr hc)))]
      rfl

/-- A map whose function fixes every element of the list is the identity. -/
theorem map_id_of_fixed {f : Char → Char} {cs : List Char}
    (h : ∀ c ∈ cs, f c = c) : cs.map f = cs := by
  induction cs with
  | nil => rfl
  | cons a l ih =>
      rw [List.map_cons, h a (List.mem_cons_self a l),
        ih (fun c hc => h c (List.mem_cons.mpr (Or.inr hc)))]

/-- The sanitization pipeline fixes lists of storage-safe characters. -/
theorem sanitizeChars_fixed {cs : List Char} (h : ∀ c ∈ cs, isAllowed c) :
    sanitizeChars cs = cs := by
  unfold sanitizeChars
  rw [expandAt_eq_self (fun c hc => ne_at_of_isAllowed (h c hc)),
    map_id_of_fixed (fun c hc => dotSlashChar_fixed (h c hc)),
    map_id_of_fixed (fun c hc => lowerChar_fixed (h c hc)),
    map_id_of_fixed (fun c hc => sanitizeChar_fixed (h c hc))]

/-- Step 1 maps nonempty lists to nonempty lists. -/
theorem expandAt_ne_nil {cs : List Char} (h : cs ≠ []) : expandAt cs ≠ [] := by
  cases cs with
  | nil => exact absurd rfl h
  | cons a l =>
      unfold expandAt
      by_cases ha : a = '@' <;> simp [ha]

/-- The sanitization pipeline maps nonempty lists to nonempty lists. -/
theorem sanitizeChars_ne_nil {cs : List Char} (h : cs ≠ []) :
    sanitizeChars cs ≠ [] := by
  unfold sanitizeChars
  simp only [ne_eq, List.map_eq_nil_iff]
  exact expandAt_ne_nil h

/-- Unfolding a successful sanitization. -/
theorem sanitize_ok_elim {raw s : String}
    (h : _sanitize_branch_name raw = .ok s) :
    trimChars raw.data ≠ [] ∧ s.data = sanitizeChars raw.data := by
  unfold _sanitize_branch_name at h
  by_cases ht : trimChars raw.data = []
  · rw [if_pos ht] at h; exact absurd h (by simp)
  · rw [if_neg ht] at h
    refine ⟨ht, ?_⟩
    have hmk := Except.ok.inj h
    rw [← hmk]

end ObAsset

namespace ObAsset

/-- Claim C7: for every raw branch on which sanitization succeeds, the
output of `_sanitize_branch_name` is the reference transformation (replace
`@` by `_at_`, replace `.` and `/` by `_`, lowercase ASCII letters, replace
any remaining character outside `[a-z0-9_-]` by `_`), every output
character lies in `[a-z0-9_-]`, and the five concrete scenarios of the
spec hold. -/
theorem sanitize_matches_reference (raw s : String)
    (h : _sanitize_branch_name raw = .ok s) :
    s.data = sanitizeChars raw.data ∧
    (∀ c ∈ s.data, isAllowed c) ∧
    _sanitize_branch_name "test.data_model_reg" = .ok "test_data_model_reg" ∧
    _sanitize_branch_name "user@company.com" = .ok "user_at_company_com" ∧
    _sanitize_branch_name "feature/my-branch" = .ok "feature_my-branch" ∧
    _sanitize_branch_name "UPPERCASE" = .ok "uppercase" ∧
    _sanitize_branch_name "already_valid" = .ok "already_valid" := by
  refine ⟨(sanitize_ok_elim h).2, ?_, rfl, rfl, rfl, rfl, rfl⟩
  intro c hc
  rw [(sanitize_ok_elim h).2] at hc
  exact isAllowed_of_mem_sanitizeChars hc

/-- Witness for C7 at the concrete input `"user@company.com"`. -/
theorem sanitize_matches_reference_witness :
    ("user_at_company_com" : String).data =
      sanitizeChars ("user@company.com" : String).data ∧
    (∀ c ∈ ("user_at_company_com" : String).data, isAllowed c) ∧
    _sanitize_branch_name "test.data_model_reg" = .ok "test_data_model_reg" ∧
    _sanitize_branch_name "user@company.com" = .ok "user_at_company_com" ∧
    _sanitize_branch_name "feature/my-branch" = .ok "feature_my-branch" ∧
    _sanitize_branch_name "UPPERCASE" = .ok "uppercase" ∧
    _sanitize_branch_name "already_valid" = .ok "already_valid" :=
  sanitize_matches_reference "user@company.com" "user_at_company_com" rfl

/-- Claim C8: `_sanitize_branch_name` is idempotent — sanitizing an output
of a successful sanitization returns that output unchanged. -/
theorem sanitize_idempotent (raw s : String)
    (h : _sanitize_branch_name raw = .ok s) :
    _sanitize_branch_name s = .ok s := by
  obtain ⟨ht, hs⟩ := sanitize_ok_elim h
  have hall : ∀ c ∈ s.data, isAllowed c := by
    rw [hs]; exact fun c hc => isAllowed_of_mem_sanitizeChars hc
  have hraw_ne : raw.data ≠ [] := by
    rintro hnil
    rw [hnil] at ht
    exact ht rfl
  have hs_ne : s.data ≠ [] := by rw [hs]; exact sanitizeChars_ne_nil hraw_ne
  have htrim : trimChars s.data = s.data :=
    trimChars_eq_self (fun c hc => not_whitespace_of_isAllowed (hall c hc))
  unfold _sanitize_branch_name
  rw [if_neg (by rw [htrim]; exact hs_ne), sanitizeChars_fixed hall]

/-- Witness for C8 at the concrete input `"test.data_model_reg"`. -/
theorem sanitize_idempotent_witness :
    _sanitize_branch_name "test_data_model_reg" = .ok "test_data_model_reg" :=
  sanitize_idempotent "test.data_model_reg" "test_data_model_reg" rfl

/-- Claim C9: `_sanitize_branch_name` fails with `InvalidBranchName` exactly
when the raw branch is empty after trimming whitespace, and on every other
input it returns a sanitized string without error. -/
theorem sanitize_error_iff_blank (raw : String) :
    (_sanitize_branch_name raw = .error .invalidBranchName ↔
      trimChars raw.data = []) ∧
    (trimChars raw.data ≠ [] → ∃ s, _sanitize_branch_name raw = .ok s) := by
  unfold _sanitize_branch_name
  by_cases ht : trimChars raw.data = []
  · rw [if_pos ht]
    exact ⟨⟨fun _ => ht, fun _ => rfl⟩, fun hn => absurd ht hn⟩
  · rw [if_neg ht]
    refine ⟨⟨fun hcontra => absurd hcontra (by simp), fun hcontra => absurd hcontra ht⟩,
      fun _ => ⟨String.mk (sanitizeChars raw.data), rfl⟩⟩

/-- Witness for C9 at the inputs `"   "` (blank) and `"UPPERCASE"`. -/
theorem sanitize_error_iff_blank_witness :
    _sanitize_branch_name "   " = .error .invalidBranchName ∧
    ∃ s, _sanitize_branch_name "UPPERCASE" = .ok s :=
  ⟨(sanitize_error_iff_blank "   ").1.mpr rfl,
    (sanitize_error_iff_blank "UPPERCASE").2 (by decide)⟩

end ObAsset

namespace ObAsset

/-- A valid deployment spec under a named project always yields a result. -/
theorem resolve_scope_ok_shape (cfg : ProjectConfig) (d : DeploymentSpec)
    (hp : cfg.project ≠ "") (hv : ¬(d.metaflow_branch = "" ∧ d.branch = "")) :
    ∃ r, resolve_scope cfg (some d) = .ok r := by
  by_cases hprod : is_production (effective_branch d) = true
  · exact ⟨(cfg.project, some (effective_branch d)),
      by simp [resolve_scope, hp, hv, hprod]⟩
  · cases hda : cfg.dev_assets with
    | none => exact ⟨(cfg.project, some (effective_branch d)),
        by simp [resolve_scope, hp, hv, hprod, hda]⟩
    | some ov => exact ⟨(cfg.project, some ov),
        by simp [resolve_scope, hp, hv, hprod, hda]⟩

/-- Claim C1: for every production-classified effective branch, the resolver
returns the effective branch itself as the read branch, for every project
configuration — in particular whatever the dev-assets override holds. -/
theorem production_reads_own_branch (cfg : ProjectConfig) (d : DeploymentSpec)
    (hp : cfg.project ≠ "") (hprod : is_production (effective_branch d) = true) :
    resolve_scope cfg (some d) = .ok (cfg.project, some (effective_branch d)) := by
  have hv : ¬(d.metaflow_branch = "" ∧ d.branch = "") := by
    rintro ⟨h1, h2⟩
    rw [effective_branch, if_pos h1, h2] at hprod
    exact absurd hprod (by decide)
  simp [resolve_scope, hp, hv, hprod]

/-- Witness for C1 at the production deployment of the test suite, with an
override present. -/
theorem production_reads_own_branch_witness :
    resolve_scope ⟨"my_project", some "main"⟩ (some ⟨"main", "prod"⟩) =
      .ok ("my_project", some "prod") :=
  production_reads_own_branch ⟨"my_project", some "main"⟩ ⟨"main", "prod"⟩
    (by decide) (by decide)

/-- Claim C2: whenever the configuration carries a dev-assets override, a
non-production deployment (valid spec with non-production effective branch)
and likewise an absent deployment spec read from the override branch. -/
theorem override_redirects_read (cfg : ProjectConfig)
    (spec : Option DeploymentSpec) (ov : String)
    (hp : cfg.project ≠ "") (hov : cfg.dev_assets = some ov)
    (hnp : ∀ d, spec = some d → ¬(d.metaflow_branch = "" ∧ d.branch = "") ∧
      is_production (effective_branch d) = false) :
    resolve_scope cfg spec = .ok (cfg.project, some ov) := by
  cases spec with
  | none => simp [resolve_scope, hp, hov]
  | some d =>
      obtain ⟨hv, hnprod⟩ := hnp d rfl
      simp [resolve_scope, hp, hv, hnprod, hov]

/-- Witness for C2 at the test deployment with override of the test suite. -/
theorem override_redirects_read_witness :
    resolve_scope ⟨"my_project", some "prod"⟩ (some ⟨"feature", "test.feature"⟩) =
      .ok ("my_project", some "prod") :=
  override_redirects_read ⟨"my_project", some "prod"⟩
    (some ⟨"feature", "test.feature"⟩) "prod" (by decide) rfl
    (by
      intro d hd
      injection hd with h
      subst h
      exact ⟨by decide, by decide⟩)

/-- Counterexample to claim C3 as stated: at the test-suite scenario of a
present non-production deployment spec with no override, the resolver
returns the concrete effective branch, not the none sentinel. -/
theorem nonprod_no_override_counterexample :
    resolve_scope ⟨"my_project", none⟩ (some ⟨"feature", "test.feature"⟩) =
      .ok ("my_project", some "test.feature") ∧
    resolve_scope ⟨"my_project", none⟩ (some ⟨"feature", "test.feature"⟩) ≠
      .ok ("my_project", none) := by
  refine ⟨rfl, fun hcontra => ?_⟩
  have hpair := Except.ok.inj hcontra
  simp at hpair

/-- Claim C3 (amended): with no override the resolver returns the none
sentinel exactly when the deployment spec is absent; for a present valid
non-production deployment spec it returns the effective branch itself. -/
theorem no_override_read_policy (cfg : ProjectConfig)
    (hp : cfg.project ≠ "") (hno : cfg.dev_assets = none) :
    resolve_scope cfg none = .ok (cfg.project, none) ∧
    ∀ d : DeploymentSpec, ¬(d.metaflow_branch = "" ∧ d.branch = "") →
      is_production (effective_branch d) = false →
      resolve_scope cfg (some d) = .ok (cfg.project, some (effective_branch d)) := by
  constructor
  · simp [resolve_scope, hp, hno]
  · intro d hv hnp
    simp [resolve_scope, hp, hv, hnp, hno]

/-- Witness for C3 (amended) at the local-development scenario of the test
suite. -/
theorem no_override_read_policy_witness :
    resolve_scope ⟨"my_project", none⟩ none = .ok ("my_project", none) :=
  (no_override_read_policy ⟨"my_project", none⟩ (by decide) rfl).1

end ObAsset

namespace ObAsset

/-- Claim C4: a present valid non-production deployment spec with no
override reads from the concrete effective branch itself (covering both the
`metaflow_branch` annotation and the legacy branch fallback), and the none
sentinel is returned only for an absent deployment spec with no override. -/
theorem nonprod_reads_effective_none_only_local (cfg : ProjectConfig)
    (d : DeploymentSpec) (hp : cfg.project ≠ "")
    (hv : ¬(d.metaflow_branch = "" ∧ d.branch = ""))
    (hnp : is_production (effective_branch d) = false)
    (hno : cfg.dev_assets = none) :
    resolve_scope cfg (some d) = .ok (cfg.project, some (effective_branch d)) ∧
    ∀ (c : ProjectConfig) (spec : Option DeploymentSpec) (p : String),
      resolve_scope c spec = .ok (p, none) → spec = none ∧ c.dev_assets = none := by
  refine ⟨by simp [resolve_scope, hp, hv, hnp, hno], ?_⟩
  intro c spec p h
  by_cases hcp : c.project = ""
  · simp [resolve_scope, hcp] at h
  · cases spec with
    | none =>
        simp only [resolve_scope, if_neg hcp, Except.ok.injEq, Prod.mk.injEq] at h
        exact ⟨rfl, h.2⟩
    | some d2 =>
        exfalso
        by_cases hv2 : d2.metaflow_branch = "" ∧ d2.branch = ""
        · simp [resolve_scope, hcp, hv2] at h
        · by_cases hpr : is_production (effective_branch d2) = true
          · simp [resolve_scope, hcp, hv2, hpr] at h
          · cases hda : c.dev_assets with
            | none => simp [resolve_scope, hcp, hv2, hpr, hda] at h
            | some ov => simp [resolve_scope, hcp, hv2, hpr, hda] at h

/-- Witness for C4 at the test deployment without override of the test
suite. -/
theorem nonprod_reads_effective_none_only_local_witness :
    resolve_scope ⟨"my_project", none⟩ (some ⟨"feature", "test.feature"⟩) =
      .ok ("my_project", some "test.feature") :=
  (nonprod_reads_effective_none_only_local ⟨"my_project", none⟩
    ⟨"feature", "test.feature"⟩ (by decide) (by decide) (by decide) rfl).1

/-- Claim C5: the effective branch is the legacy `branch` field when the
`metaflow_branch` annotation is empty, and the `metaflow_branch` annotation
when it is non-empty; the legacy scenario of the test suite resolves to the
legacy branch. -/
theorem effective_branch_legacy_fallback (d e : DeploymentSpec)
    (hmb : d.metaflow_branch = "") (_hbr : d.branch ≠ "")
    (hme : e.metaflow_branch ≠ "") :
    effective_branch d = d.branch ∧ effective_branch e = e.metaflow_branch ∧
    resolve_scope ⟨"legacy_project", none⟩ (some ⟨"main", ""⟩) =
      .ok ("legacy_project", some "main") := by
  refine ⟨?_, ?_, rfl⟩
  · rw [effective_branch, if_pos hmb]
  · rw [effective_branch, if_neg hme]

/-- Witness for C5 at the legacy deployment spec of the test suite and a
production deployment spec. -/
theorem effective_branch_legacy_fallback_witness :
    effective_branch ⟨"main", ""⟩ = "main" ∧
    effective_branch ⟨"main", "prod"⟩ = "prod" ∧
    resolve_scope ⟨"legacy_project", none⟩ (some ⟨"main", ""⟩) =
      .ok ("legacy_project", some "main") :=
  effective_branch_legacy_fallback ⟨"main", ""⟩ ⟨"main", "prod"⟩
    rfl (by decide) (by decide)

/-- Claim C6: the production classification holds for `"prod"` and for
`"prod."`-prefixed branches, and fails case-sensitively and on the exact
prefix boundary for every other branch; through the resolver, an override
is ignored exactly for production-classified branches. -/
theorem production_classification_cases :
    is_production "prod" = true ∧ is_production "prod.v2" = true ∧
    is_production "prod.anything" = true ∧ is_production "production" = false ∧
    is_production "prodx" = false ∧ is_production "Prod" = false ∧
    is_production "test.feature" = false ∧ is_production "user.alice" = false ∧
    resolve_scope ⟨"my_project", some "ov"⟩ (some ⟨"b", "prodx"⟩) =
      .ok ("my_project", some "ov") ∧
    resolve_scope ⟨"my_project", some "ov"⟩ (some ⟨"b", "prod.v2"⟩) =
      .ok ("my_project", some "prod.v2") :=
  ⟨rfl, rfl, rfl, rfl, rfl, rfl, rfl, rfl, rfl, rfl⟩

/-- Claim C10: the resolver fails with `InvalidConfiguration` exactly when
the project name is missing, fails with `InvalidDeploymentSpec` exactly when
the project name is present and a deployment spec is present with both its
`metaflow_branch` annotation and its `branch` field empty, and returns a
result on every other input. -/
theorem resolve_scope_error_modes (cfg : ProjectConfig)
    (spec : Option DeploymentSpec) :
    (resolve_scope cfg spec = .error .invalidConfiguration ↔
      cfg.project = "") ∧
    (resolve_scope cfg spec = .error .invalidDeploymentSpec ↔
      cfg.project ≠ "" ∧
        ∃ d, spec = some d ∧ d.metaflow_branch = "" ∧ d.branch = "") ∧
    (cfg.project ≠ "" →
      (∀ d, spec = some d → ¬(d.metaflow_branch = "" ∧ d.branch = "")) →
      ∃ r, resolve_scope cfg spec = .ok r) := by
  by_cases hp : cfg.project = ""
  · refine ⟨⟨fun _ => hp, fun _ => by simp [resolve_scope, hp]⟩, ?_, ?_⟩
    · constructor
      · intro h
        simp [resolve_scope, hp] at h
      · rintro ⟨hne, _⟩
        exact absurd hp hne
    · intro hne _
      exact absurd hp hne
  · cases spec with
    | none =>
        refine ⟨⟨fun h => ?_, fun h => absurd h hp⟩, ⟨fun h => ?_, ?_⟩, fun _ _ => ?_⟩
        · simp [resolve_scope, hp] at h
        · simp [resolve_scope, hp] at h
        · rintro ⟨_, d, hd, _⟩
          exact absurd hd (by simp)
        · exact ⟨(cfg.project, cfg.dev_assets), by simp [resolve_scope, hp]⟩
    | some d =>
        by_cases hv : d.metaflow_branch = "" ∧ d.branch = ""
        · refine ⟨⟨fun h => ?_, fun h => absurd h hp⟩,
            ⟨fun _ => ⟨hp, d, rfl, hv⟩, fun _ => by simp [resolve_scope, hp, hv]⟩,
            fun _ hall => absurd hv (hall d rfl)⟩
          simp [resolve_scope, hp, hv] at h
        · obtain ⟨r, hr⟩ := resolve_scope_ok_shape cfg d hp hv
          refine ⟨⟨fun h => ?_, fun h => absurd h hp⟩,
            ⟨fun h => ?_, ?_⟩, fun _ _ => ⟨r, hr⟩⟩
          · rw [hr] at h
            exact absurd h (by simp)
          · rw [hr] at h
            exact absurd h (by simp)
          · rintro ⟨_, d2, hd2, h2⟩
            injection hd2 with hd2
            subst hd2
            exact absurd h2 hv

/-- Witness for C10 at a nameless configuration, an empty deployment spec
and a valid local run. -/
theorem resolve_scope_error_modes_witness :
    resolve_scope ⟨"", none⟩ none = .error .invalidConfiguration ∧
    resolve_scope ⟨"my_project", none⟩ (some ⟨"", ""⟩) =
      .error .invalidDeploymentSpec ∧
    ∃ r, resolve_scope ⟨"my_project", none⟩ none = .ok r :=
  ⟨(resolve_scope_error_modes ⟨"", none⟩ none).1.mpr rfl,
    (resolve_scope_error_modes ⟨"my_project", none⟩ (some ⟨"", ""⟩)).2.1.mpr
      ⟨by decide, ⟨"", ""⟩, rfl, rfl, rfl⟩,
    (resolve_scope_error_modes ⟨"my_project", none⟩ none).2.2 (by decide)
      (by intro d hd; exact absurd hd (by simp))⟩

end ObAsset
